import Mathlib

/-!
Shallow embedding of the eighty Intel 8080 emulator (Space Invaders machine).
Machine bytes are `Nat` kept below 256 by explicit wrapping where the Rust
code wraps; 16-bit quantities are `Nat` below 65536.  Fallible operations
(slice indexing that can go out of bounds, arithmetic that can overflow in a
checked build) return `Option`.
-/

namespace Eighty

/-- Conversion u8::from(bool). -/
def b2n (b : Bool) : Nat := if b then 1 else 0

/-- Embedding of u8::overflowing_add: wrapped sum and carry-out. -/
def overflowingAdd8 (a b : Nat) : Nat × Bool :=
  ((a + b) % 256, decide (256 ≤ a + b))

/-- Embedding of u8::overflowing_sub: wrapped difference and borrow-out. -/
def overflowingSub8 (a b : Nat) : Nat × Bool :=
  ((a + 256 - b) % 256, decide (a < b))

/-- Embedding of u16::overflowing_add. -/
def overflowingAdd16 (a b : Nat) : Nat × Bool :=
  ((a + b) % 65536, decide (65536 ≤ a + b))

/-- Embedding of util.rs U8Ext::carrying_add_p. -/
def carryingAddP (a b : Nat) (carry : Bool) : Nat × Bool :=
  let i := overflowingAdd8 a b
  let r := overflowingAdd8 i.1 (b2n carry)
  (r.1, i.2 || r.2)

/-- Embedding of util.rs U8Ext::borrowing_sub_p. -/
def borrowingSubP (a b : Nat) (borrow : Bool) : Nat × Bool :=
  let i := overflowingSub8 a b
  let r := overflowingSub8 i.1 (b2n borrow)
  (r.1, i.2 || r.2)

/-- Embedding of u8::count_ones for a byte value. -/
def countOnes8 (n : Nat) : Nat :=
  n % 2 + n / 2 % 2 + n / 4 % 2 + n / 8 % 2 +
    n / 16 % 2 + n / 32 % 2 + n / 64 % 2 + n / 128 % 2

/-- Embedding of isa/model.rs Condition. -/
inductive Condition where
  | Unconditional
  | Zero
  | NoCarry
  | Carry
  | ParityOdd
  | ParityEven
  | Plus
  | Minus
  | NonZero

/-- Embedding of Condition::from_bits. -/
def Condition.from_bits (bits : Nat) : Condition :=
  match bits % 8 with
  | 0 => .NonZero
  | 1 => .Zero
  | 2 => .NoCarry
  | 3 => .Carry
  | 4 => .ParityOdd
  | 5 => .ParityEven
  | 6 => .Plus
  | _ => .Minus

/-- Embedding of emulate/flags.rs Flags. -/
structure Flags where
  carry : Bool
  auxiliary_carry : Bool
  sign_positive : Bool
  zero : Bool
  parity_even : Bool

/-- Embedding of Flags::default: all bits clear. -/
def Flags.default : Flags :=
  { carry := false, auxiliary_carry := false, sign_positive := false,
    zero := false, parity_even := false }

/-- Embedding of Flags::set_from_arithmetic. -/
def Flags.set_from_arithmetic (f : Flags) (result : Nat) : Flags :=
  { f with
    sign_positive := decide (result &&& 128 = 0),
    zero := decide (result = 0),
    parity_even := decide (countOnes8 result % 2 = 0) }

/-- Embedding of Flags::as_byte. -/
def Flags.as_byte (f : Flags) : Nat :=
  b2n f.carry <<< 0 ||| b2n f.auxiliary_carry <<< 4 ||| b2n f.sign_positive <<< 7 |||
    b2n f.zero <<< 6 ||| b2n f.parity_even <<< 2 ||| 2

/-- Embedding of Flags::set_byte. -/
def Flags.set_byte (_f : Flags) (byte : Nat) : Flags :=
  { carry := decide (byte &&& (1 <<< 0) > 0),
    auxiliary_carry := decide (byte &&& (1 <<< 4) > 0),
    sign_positive := decide (byte &&& (1 <<< 7) > 0),
    zero := decide (byte &&& (1 <<< 6) > 0),
    parity_even := decide (byte &&& (1 <<< 2) > 0) }

/-- Embedding of Flags::evaluate. -/
def Flags.evaluate (f : Flags) (condition : Condition) : Bool :=
  match condition with
  | .Unconditional => true
  | .Zero => f.zero
  | .NoCarry => !f.carry
  | .Carry => f.carry
  | .ParityOdd => !f.parity_even
  | .ParityEven => f.parity_even
  | .Plus => f.sign_positive
  | .Minus => !f.sign_positive
  | .NonZero => !f.zero

/-- Embedding of isa/model.rs Register. -/
inductive Register where
  | B
  | C
  | D
  | E
  | H
  | L
  | MemoryRef
  | A

/-- Embedding of Register::from_bits. -/
def Register.from_bits (bits : Nat) : Register :=
  match bits % 8 with
  | 0 => .B
  | 1 => .C
  | 2 => .D
  | 3 => .E
  | 4 => .H
  | 5 => .L
  | 6 => .MemoryRef
  | _ => .A

/-- Embedding of isa/model.rs SmallRegisterPair. -/
inductive SmallRegisterPair where
  | Bc
  | De

/-- Embedding of SmallRegisterPair::from_bits. -/
def SmallRegisterPair.from_bits (bits : Nat) : SmallRegisterPair :=
  match bits % 2 with
  | 0 => .Bc
  | _ => .De

/-- Embedding of isa/model.rs StackOpRegPair. -/
inductive StackOpRegPair where
  | Bc
  | De
  | Hl
  | FlagsA

/-- Embedding of StackOpRegPair::from_bits. -/
def StackOpRegPair.from_bits (bits : Nat) : StackOpRegPair :=
  match bits % 4 with
  | 0 => .Bc
  | 1 => .De
  | 2 => .Hl
  | _ => .FlagsA

/-- Embedding of isa/model.rs LargeRegPair. -/
inductive LargeRegPair where
  | Bc
  | De
  | Hl
  | Sp

/-- Embedding of LargeRegPair::from_bits. -/
def LargeRegPair.from_bits (bits : Nat) : LargeRegPair :=
  match bits % 4 with
  | 0 => .Bc
  | 1 => .De
  | 2 => .Hl
  | _ => .Sp

/-- Embedding of isa/model.rs ToAccumulatorOperation. -/
inductive ToAccumulatorOperation where
  | Add
  | AddWithCarry
  | Subtract
  | SubtractWithBorrow
  | And
  | Xor
  | Or
  | Compare

/-- Embedding of ToAccumulatorOperation::from_bits. -/
def ToAccumulatorOperation.from_bits (bits : Nat) : ToAccumulatorOperation :=
  match bits % 8 with
  | 0 => .Add
  | 1 => .AddWithCarry
  | 2 => .Subtract
  | 3 => .SubtractWithBorrow
  | 4 => .And
  | 5 => .Xor
  | 6 => .Or
  | _ => .Compare

/-- Embedding of isa/model.rs RotateAccumulatorOperation. -/
inductive RotateAccumulatorOperation where
  | Left
  | Right
  | LeftThroughCarry
  | RightThroughCarry

/-- Embedding of RotateAccumulatorOperation::from_bits. -/
def RotateAccumulatorOperation.from_bits (bits : Nat) : RotateAccumulatorOperation :=
  match bits % 4 with
  | 0 => .Left
  | 1 => .Right
  | 2 => .LeftThroughCarry
  | _ => .RightThroughCarry

/-- Embedding of isa/model.rs DirectAddressOperation. -/
inductive DirectAddressOperation where
  | StoreHl
  | LoadHl
  | StoreAccumulator
  | LoadAccumulator

/-- Embedding of DirectAddressOperation::from_bits. -/
def DirectAddressOperation.from_bits (bits : Nat) : DirectAddressOperation :=
  match bits % 4 with
  | 0 => .StoreHl
  | 1 => .LoadHl
  | 2 => .StoreAccumulator
  | _ => .LoadAccumulator

/-- Embedding of isa/model.rs Instruction. -/
inductive Instruction where
  | ComplementCarry
  | SetCarry
  | Increment (register : Register)
  | Decrement (register : Register)
  | ComplementAccumulator
  | DecimalAdjustAccumulator
  | Nop
  | Move (destination source : Register)
  | StoreAccumulator (pair : SmallRegisterPair)
  | LoadAccumulator (pair : SmallRegisterPair)
  | ToAccumulator (operation : ToAccumulatorOperation) (register : Register)
  | RotateAccumulator (operation : RotateAccumulatorOperation)
  | Push (pair : StackOpRegPair)
  | Pop (pair : StackOpRegPair)
  | AddToHl (pair : LargeRegPair)
  | IncrementPair (pair : LargeRegPair)
  | DecrementPair (pair : LargeRegPair)
  | ExchangeRegisters
  | ExchangeStack
  | LoadSpFromHl
  | LoadLargeImmediate (pair : LargeRegPair) (value : Nat)
  | LoadImmediate (register : Register) (value : Nat)
  | ToAccumulatorImmediate (operation : ToAccumulatorOperation) (value : Nat)
  | DirectAddress (operation : DirectAddressOperation) (addr : Nat)
  | LoadProgramCounter
  | Jump (condition : Condition) (addr : Nat)
  | Call (condition : Condition) (addr : Nat)
  | ReturnFromSubroutine (condition : Condition)
  | Restart (routine_number : Nat)
  | EnableInterrupts
  | DisableInterrupts
  | In (port : Nat)
  | Out (port : Nat)
  | Halt
  | Invalid (opcode : Nat)

/-- Embedding of isa/buffer.rs Buffer: the borrowed byte slice is modelled as
a partial indexing function (`none` is an out-of-bounds access, which in the
source is a panic). -/
structure Buffer where
  data : Nat → Option Nat
  cursor : Nat

/-- Embedding of Buffer::read_u8. -/
def Buffer.read_u8 (b : Buffer) : Option (Nat × Buffer) :=
  match b.data b.cursor with
  | none => none
  | some ret => some (ret, { b with cursor := b.cursor + 1 })

/-- Embedding of Buffer::read_u16 (little endian, two bytes). -/
def Buffer.read_u16 (b : Buffer) : Option (Nat × Buffer) :=
  match b.data b.cursor, b.data (b.cursor + 1) with
  | some lo, some hi => some (lo + 256 * hi, { b with cursor := b.cursor + 2 })
  | _, _ => none

/-- Embedding of the opcode dispatch match inside Instruction::decode
(isa/decode.rs), factored out after the opcode read so the dispatch can be
reasoned about per opcode.  The byte_pattern
macro compiles the match arms to a dispatch over mutually disjoint opcode
sets (the macro rejects overlaps), so an ordered test chain over the same
mask/value tests is equivalent; each 8-bit mask test is written here with
byte arithmetic (opcode / 2^p % 2^n compares the masked bit field).  Named captures of width n at bit p become
opcode / 2^p % 2^n, the value the macro emits as (opcode >> p) & (2^n - 1).  An opcode
covered by no arm would be a Rust compile error; here it would yield none. -/
def Instruction.decodeTail (opcode : Nat) (buffer : Buffer) :
    Option (Instruction × Buffer) :=
  if opcode = 0x3F then pure (.ComplementCarry, buffer)
  else if opcode = 0x37 then pure (.SetCarry, buffer)
  else if opcode = 0x2F then pure (.ComplementAccumulator, buffer)
  else if opcode = 0x27 then pure (.DecimalAdjustAccumulator, buffer)
  else if opcode = 0x00 then pure (.Nop, buffer)
  else if opcode = 0xEB then pure (.ExchangeRegisters, buffer)
  else if opcode = 0xE3 then pure (.ExchangeStack, buffer)
  else if opcode = 0xF9 then pure (.LoadSpFromHl, buffer)
  else if opcode = 0xE9 then pure (.LoadProgramCounter, buffer)
  else if opcode = 0xFB then pure (.EnableInterrupts, buffer)
  else if opcode = 0xF3 then pure (.DisableInterrupts, buffer)
  else if opcode = 0xDB then do
    let (v, buffer) ← buffer.read_u8
    pure (.In v, buffer)
  else if opcode = 0xD3 then do
    let (v, buffer) ← buffer.read_u8
    pure (.Out v, buffer)
  else if opcode = 0x76 then pure (.Halt, buffer)
  else if opcode / 64 = 0 ∧ opcode % 8 = 4 then
    pure (.Increment (Register.from_bits (opcode / 8 % 8)), buffer)
  else if opcode / 64 = 0 ∧ opcode % 8 = 5 then
    pure (.Decrement (Register.from_bits (opcode / 8 % 8)), buffer)
  else if opcode / 64 = 1 ∧ opcode ≠ 0x76 then
    pure (.Move (Register.from_bits (opcode / 8 % 8)) (Register.from_bits (opcode % 8)), buffer)
  else if opcode / 32 = 0 ∧ opcode % 16 = 2 then
    pure (.StoreAccumulator (SmallRegisterPair.from_bits (opcode / 16 % 2)), buffer)
  else if opcode / 32 = 0 ∧ opcode % 16 = 10 then
    pure (.LoadAccumulator (SmallRegisterPair.from_bits (opcode / 16 % 2)), buffer)
  else if opcode / 64 = 2 then
    pure (.ToAccumulator (ToAccumulatorOperation.from_bits (opcode / 8 % 8))
      (Register.from_bits (opcode % 8)), buffer)
  else if opcode / 32 = 0 ∧ opcode % 8 = 7 then
    pure (.RotateAccumulator (RotateAccumulatorOperation.from_bits (opcode / 8 % 4)), buffer)
  else if opcode / 64 = 3 ∧ opcode % 16 = 5 then
    pure (.Push (StackOpRegPair.from_bits (opcode / 16 % 4)), buffer)
  else if opcode / 64 = 3 ∧ opcode % 16 = 1 then
    pure (.Pop (StackOpRegPair.from_bits (opcode / 16 % 4)), buffer)
  else if opcode / 64 = 0 ∧ opcode % 16 = 9 then
    pure (.AddToHl (LargeRegPair.from_bits (opcode / 16 % 4)), buffer)
  else if opcode / 64 = 0 ∧ opcode % 16 = 3 then
    pure (.IncrementPair (LargeRegPair.from_bits (opcode / 16 % 4)), buffer)
  else if opcode / 64 = 0 ∧ opcode % 16 = 11 then
    pure (.DecrementPair (LargeRegPair.from_bits (opcode / 16 % 4)), buffer)
  else if opcode / 64 = 0 ∧ opcode % 16 = 1 then do
    let (v, buffer) ← buffer.read_u16
    pure (.LoadLargeImmediate (LargeRegPair.from_bits (opcode / 16 % 4)) v, buffer)
  else if opcode / 64 = 0 ∧ opcode % 8 = 6 then do
    let (v, buffer) ← buffer.read_u8
    pure (.LoadImmediate (Register.from_bits (opcode / 8 % 8)) v, buffer)
  else if opcode / 64 = 3 ∧ opcode % 8 = 6 then do
    let (v, buffer) ← buffer.read_u8
    pure (.ToAccumulatorImmediate (ToAccumulatorOperation.from_bits (opcode / 8 % 8)) v, buffer)
  else if opcode / 32 = 1 ∧ opcode % 8 = 2 then do
    let (v, buffer) ← buffer.read_u16
    pure (.DirectAddress (DirectAddressOperation.from_bits (opcode / 8 % 4)) v, buffer)
  else if opcode / 64 = 3 ∧ opcode % 8 = 7 then
    pure (.Restart (opcode / 8 % 8), buffer)
  else if opcode = 0x08 ∨ opcode = 0x10 ∨ opcode = 0x18 ∨ opcode = 0x20 ∨
      opcode = 0x28 ∨ opcode = 0x30 ∨ opcode = 0x38 then
    pure (.Invalid opcode, buffer)
  else if opcode / 64 = 3 ∧ opcode % 8 = 2 then do
    let (v, buffer) ← buffer.read_u16
    pure (.Jump (Condition.from_bits (opcode / 8 % 8)) v, buffer)
  else if opcode / 16 = 12 ∧ opcode % 8 = 3 then do
    let (v, buffer) ← buffer.read_u16
    pure (.Jump .Unconditional v, buffer)
  else if opcode / 64 = 3 ∧ opcode % 8 = 4 then do
    let (v, buffer) ← buffer.read_u16
    pure (.Call (Condition.from_bits (opcode / 8 % 8)) v, buffer)
  else if opcode / 64 = 3 ∧ opcode % 16 = 13 then do
    let (v, buffer) ← buffer.read_u16
    pure (.Call .Unconditional v, buffer)
  else if opcode / 64 = 3 ∧ opcode % 8 = 0 then
    pure (.ReturnFromSubroutine (Condition.from_bits (opcode / 8 % 8)), buffer)
  else if opcode / 32 = 6 ∧ opcode % 16 = 9 then
    pure (.ReturnFromSubroutine .Unconditional, buffer)
  else none

/-- Embedding of Instruction::decode: read the opcode byte, then dispatch on
its bit pattern (the dispatch chain is Instruction.decodeTail above). -/
def Instruction.decode (buffer : Buffer) : Option (Instruction × Buffer) := do
  let (opcode, buffer) ← buffer.read_u8
  Instruction.decodeTail opcode buffer

/-- Modelled from the spec: total byte count per opcode per the section 6
opcode table (2-byte rows: In, Out, LoadImmediate, ToAccumulatorImmediate;
3-byte rows: LoadLargeImmediate, DirectAddress, Jump, Call; all others 1). -/
def specByteCount (opcode : Nat) : Nat :=
  if opcode = 0xDB ∨ opcode = 0xD3 then 2
  else if opcode / 64 = 0 ∧ opcode % 16 = 1 then 3
  else if opcode / 64 = 0 ∧ opcode % 8 = 6 then 2
  else if opcode / 64 = 3 ∧ opcode % 8 = 6 then 2
  else if opcode / 32 = 1 ∧ opcode % 8 = 2 then 3
  else if (opcode / 64 = 3 ∧ opcode % 8 = 2) ∨ (opcode / 16 = 12 ∧ opcode % 8 = 3) then 3
  else if (opcode / 64 = 3 ∧ opcode % 8 = 4) ∨ (opcode / 64 = 3 ∧ opcode % 16 = 13) then 3
  else 1

/-- Embedding of emulate/registers.rs Registers. -/
structure Registers where
  b : Nat
  c : Nat
  d : Nat
  e : Nat
  h : Nat
  l : Nat
  a : Nat
  stack_pointer : Nat
  program_counter : Nat

/-- Embedding of Registers::default: all zero. -/
def Registers.default : Registers :=
  { b := 0, c := 0, d := 0, e := 0, h := 0, l := 0, a := 0,
    stack_pointer := 0, program_counter := 0 }

/-- Embedding of Registers::hl (u16::from_le_bytes of l low, h high). -/
def Registers.hl (r : Registers) : Nat := r.l + 256 * r.h

/-- Embedding of Registers::set_hl (to_le_bytes). -/
def Registers.set_hl (r : Registers) (value : Nat) : Registers :=
  { r with l := value % 256, h := value / 256 % 256 }

/-- Embedding of Registers::get_pair. -/
def Registers.get_pair (r : Registers) : LargeRegPair → Nat
  | .Bc => r.c + 256 * r.b
  | .De => r.e + 256 * r.d
  | .Hl => r.l + 256 * r.h
  | .Sp => r.stack_pointer

/-- Embedding of Registers::set_pair. -/
def Registers.set_pair (r : Registers) (pair : LargeRegPair) (value : Nat) : Registers :=
  match pair with
  | .Bc => { r with c := value % 256, b := value / 256 % 256 }
  | .De => { r with e := value % 256, d := value / 256 % 256 }
  | .Hl => { r with l := value % 256, h := value / 256 % 256 }
  | .Sp => { r with stack_pointer := value }

/-- Embedding of Registers::map_pair. -/
def Registers.map_pair (r : Registers) (pair : LargeRegPair) (f : Nat → Nat) : Registers :=
  r.set_pair pair (f (r.get_pair pair))

/-- Pointwise update of the 65536-byte memory array. -/
def memUpdate (m : Nat → Nat) (addr v : Nat) : Nat → Nat :=
  fun i => if i = addr then v else m i

/-- Embedding of emulate/regs_and_mem.rs RegistersAndMemory.  The 64 KiB
byte array is modelled as an indexing function; every address the code
forms for a single-byte access is a u16 and hence in bounds. -/
structure RegistersAndMemory where
  registers : Registers
  memory : Nat → Nat

/-- Embedding of RegistersAndMemory::get_at_hl. -/
def RegistersAndMemory.get_at_hl (rm : RegistersAndMemory) : Nat :=
  rm.memory rm.registers.hl

/-- Embedding of RegistersAndMemory::get_u16_at.  The source slices
memory[addr..][..2], which is a panic when addr + 2 exceeds 65536. -/
def RegistersAndMemory.get_u16_at (rm : RegistersAndMemory) (addr : Nat) : Option Nat :=
  if addr + 2 ≤ 65536 then some (rm.memory addr + 256 * rm.memory (addr + 1)) else none

/-- Embedding of RegistersAndMemory::set_u16_at (same bounds as get_u16_at). -/
def RegistersAndMemory.set_u16_at (rm : RegistersAndMemory) (addr value : Nat) :
    Option RegistersAndMemory :=
  if addr + 2 ≤ 65536 then
    some { rm with
      memory := memUpdate (memUpdate rm.memory addr (value % 256)) (addr + 1) (value / 256 % 256) }
  else none

/-- Embedding of RegistersAndMemory::get_at_stack. -/
def RegistersAndMemory.get_at_stack (rm : RegistersAndMemory) : Option Nat :=
  rm.get_u16_at rm.registers.stack_pointer

/-- Embedding of RegistersAndMemory::set_at_stack. -/
def RegistersAndMemory.set_at_stack (rm : RegistersAndMemory) (value : Nat) :
    Option RegistersAndMemory :=
  rm.set_u16_at rm.registers.stack_pointer value

/-- Embedding of RegistersAndMemory::get_small_pair (256 * high + low). -/
def RegistersAndMemory.get_small_pair (rm : RegistersAndMemory) : SmallRegisterPair → Nat
  | .Bc => 256 * rm.registers.b + rm.registers.c
  | .De => 256 * rm.registers.d + rm.registers.e

/-- Embedding of RegistersAndMemory::push: wrapping SP decrement by 2, then
little-endian store at the new SP. -/
def RegistersAndMemory.push (rm : RegistersAndMemory) (value : Nat) :
    Option RegistersAndMemory :=
  let rm := { rm with registers :=
    { rm.registers with stack_pointer := (rm.registers.stack_pointer + 65534) % 65536 } }
  rm.set_at_stack value

/-- Embedding of RegistersAndMemory::pop: little-endian read at SP, then
wrapping SP increment by 2. -/
def RegistersAndMemory.pop (rm : RegistersAndMemory) : Option (Nat × RegistersAndMemory) :=
  match rm.get_at_stack with
  | none => none
  | some ret => some (ret, { rm with registers :=
      { rm.registers with stack_pointer := (rm.registers.stack_pointer + 2) % 65536 } })

/-- Embedding of the Index impl on RegistersAndMemory. -/
def RegistersAndMemory.get (rm : RegistersAndMemory) : Register → Nat
  | .A => rm.registers.a
  | .B => rm.registers.b
  | .C => rm.registers.c
  | .D => rm.registers.d
  | .E => rm.registers.e
  | .H => rm.registers.h
  | .L => rm.registers.l
  | .MemoryRef => rm.get_at_hl

/-- Embedding of the IndexMut impl on RegistersAndMemory (as a write). -/
def RegistersAndMemory.set (rm : RegistersAndMemory) (reg : Register) (v : Nat) :
    RegistersAndMemory :=
  match reg with
  | .A => { rm with registers := { rm.registers with a := v } }
  | .B => { rm with registers := { rm.registers with b := v } }
  | .C => { rm with registers := { rm.registers with c := v } }
  | .D => { rm with registers := { rm.registers with d := v } }
  | .E => { rm with registers := { rm.registers with e := v } }
  | .H => { rm with registers := { rm.registers with h := v } }
  | .L => { rm with registers := { rm.registers with l := v } }
  | .MemoryRef => { rm with memory := memUpdate rm.memory rm.registers.hl v }

/-- Embedding of emulate/shift_register.rs ShiftRegister. -/
structure ShiftRegister where
  low : Nat
  high : Nat
  offset : Nat

/-- Embedding of ShiftRegister::default. -/
def ShiftRegister.default : ShiftRegister := { low := 0, high := 0, offset := 0 }

/-- Embedding of ShiftRegister::read.  The source computes
(combined >> (8 - offset)) as u8 with 8 and offset as u8 values; when the
offset exceeds 8 the subtraction overflows (a checked-arithmetic panic), so
the read is only defined for offset ≤ 8. -/
def ShiftRegister.read (sr : ShiftRegister) : Option Nat :=
  if sr.offset ≤ 8 then
    some (((256 * sr.high + sr.low) >>> (8 - sr.offset)) % 256)
  else none

/-- Embedding of ShiftRegister::write: shift high into low, store new byte. -/
def ShiftRegister.write (sr : ShiftRegister) (value : Nat) : ShiftRegister :=
  { sr with low := sr.high, high := value }

/-- Embedding of ShiftRegister::write_offset: stores the raw byte. -/
def ShiftRegister.write_offset (sr : ShiftRegister) (offset : Nat) : ShiftRegister :=
  { sr with offset := offset }

/-- Embedding of emulate/sound.rs Sound. -/
inductive Sound where
  | UfoStart
  | UfoStop
  | Shot
  | Flash
  | InvaderDie
  | FleetMovement1
  | FleetMovement2
  | FleetMovement3
  | FleetMovement4
  | UfoHit

/-- Embedding of emulate/sound.rs Handler state; the play_sound callback is
modelled by returning the list of sounds played, in call order. -/
structure SoundHandler where
  last_port_3 : Nat
  last_port_5 : Nat

/-- Embedding of Handler::new. -/
def SoundHandler.new : SoundHandler := { last_port_3 := 0, last_port_5 := 0 }

/-- Embedding of Handler::write_3; the u8 complement of the previous value
is 255 ^^^ previous. -/
def SoundHandler.write_3 (h : SoundHandler) (value : Nat) : SoundHandler × List Sound :=
  let nw := value &&& (255 ^^^ h.last_port_3)
  let ufo : List Sound :=
    if nw &&& (1 <<< 0) > 0 then [.UfoStart]
    else if ((255 ^^^ value) &&& h.last_port_3) &&& (1 <<< 0) > 0 then [.UfoStop]
    else []
  let shot : List Sound := if nw &&& (1 <<< 1) > 0 then [.Shot] else []
  let flash : List Sound := if nw &&& (1 <<< 2) > 0 then [.Flash] else []
  let die : List Sound := if nw &&& (1 <<< 3) > 0 then [.InvaderDie] else []
  ({ h with last_port_3 := value }, ufo ++ shot ++ flash ++ die)

/-- Embedding of Handler::write_5. -/
def SoundHandler.write_5 (h : SoundHandler) (value : Nat) : SoundHandler × List Sound :=
  let nw := value &&& (255 ^^^ h.last_port_5)
  let f1 : List Sound := if nw &&& (1 <<< 0) > 0 then [.FleetMovement1] else []
  let f2 : List Sound := if nw &&& (1 <<< 1) > 0 then [.FleetMovement2] else []
  let f3 : List Sound := if nw &&& (1 <<< 2) > 0 then [.FleetMovement3] else []
  let f4 : List Sound := if nw &&& (1 <<< 3) > 0 then [.FleetMovement4] else []
  let uh : List Sound := if nw &&& (1 <<< 4) > 0 then [.UfoHit] else []
  ({ h with last_port_5 := value }, f1 ++ f2 ++ f3 ++ f4 ++ uh)

/-- Embedding of emulate/mod.rs Emulator.  The button receiver channel and
the cycle-accurate sleep are host/timing concerns and carry no CPU-visible
state; sounds_played records the play_sound callback invocations. -/
structure Emulator where
  flags : Flags
  interrupts_enabled : Bool
  regs_and_mem : RegistersAndMemory
  shift_register : ShiftRegister
  buttons : Nat
  sound_handler : SoundHandler
  sounds_played : List Sound

/-- Embedding of Emulator::new memory initialization: zeroed 64 KiB with the
program copied in starting at the load address. -/
def loadMemory (program : List Nat) (start : Nat) : Nat → Nat :=
  fun addr => if start ≤ addr ∧ addr < start + program.length
    then program.getD (addr - start) 0 else 0

/-- Embedding of Emulator::new: default flags, interrupts enabled, zeroed
registers with PC at the load address. -/
def Emulator.new (program : List Nat) (start : Nat) : Emulator :=
  { flags := Flags.default,
    interrupts_enabled := true,
    regs_and_mem :=
      { registers := { Registers.default with program_counter := start },
        memory := loadMemory program start },
    shift_register := ShiftRegister.default,
    buttons := 0,
    sound_handler := SoundHandler.new,
    sounds_played := [] }

/-- Embedding of emulate/ports.rs Emulator::read_port.  The outer Option is
a panic (the port-3 shift-register read with an offset above 8); the inner
Option is the source return value, none meaning an unattached port. -/
def Emulator.read_port (e : Emulator) (port : Nat) : Option (Option Nat) :=
  if port = 0 then some (some 0x0E)
  else if port = 1 then some (some e.buttons)
  else if port = 2 then some (some 0)
  else if port = 3 then (e.shift_register.read).map some
  else some none

/-- Embedding of emulate/ports.rs Emulator::write_port (port 6 and the
unattached default only log). -/
def Emulator.write_port (e : Emulator) (port value : Nat) : Emulator :=
  if port = 2 then { e with shift_register := e.shift_register.write_offset value }
  else if port = 3 then
    let r := e.sound_handler.write_3 value
    { e with sound_handler := r.1, sounds_played := e.sounds_played ++ r.2 }
  else if port = 4 then { e with shift_register := e.shift_register.write value }
  else if port = 5 then
    let r := e.sound_handler.write_5 value
    { e with sound_handler := r.1, sounds_played := e.sounds_played ++ r.2 }
  else e

/-- Embedding of execute_one.rs ExecuteResult. -/
inductive ExecuteResult where
  | Normal
  | Halt (interrupts_enabled : Bool)

/-- Embedding of Emulator::do_operation from execute_one.rs. -/
def Emulator.do_operation (e : Emulator) (operation : ToAccumulatorOperation)
    (reg : Register) (value : Nat) : Emulator :=
  let r := e.regs_and_mem.get reg
  match operation with
  | .Add =>
    let aux := decide ((r &&& 15) + (value &&& 15) > 15)
    let s := overflowingAdd8 r value
    { e with
      regs_and_mem := e.regs_and_mem.set reg s.1
      flags := Flags.set_from_arithmetic
        { e.flags with auxiliary_carry := aux, carry := s.2 } s.1 }
  | .AddWithCarry =>
    let carry := e.flags.carry
    let aux := decide ((r &&& 15) + (value &&& 15) + b2n carry > 15)
    let s := carryingAddP r value carry
    { e with
      regs_and_mem := e.regs_and_mem.set reg s.1
      flags := Flags.set_from_arithmetic
        { e.flags with auxiliary_carry := aux, carry := s.2 } s.1 }
  | .Subtract =>
    let aux := (borrowingSubP (r >>> 4) (value >>> 4) false).2
    let s := borrowingSubP r value false
    { e with
      regs_and_mem := e.regs_and_mem.set reg s.1
      flags := Flags.set_from_arithmetic
        { e.flags with auxiliary_carry := aux, carry := s.2 } s.1 }
  | .SubtractWithBorrow =>
    let carry := e.flags.carry
    let aux := (borrowingSubP (r >>> 4) (value >>> 4) carry).2
    let s := borrowingSubP r value carry
    { e with
      regs_and_mem := e.regs_and_mem.set reg s.1
      flags := Flags.set_from_arithmetic
        { e.flags with auxiliary_carry := aux, carry := s.2 } s.1 }
  | .And =>
    let v := r &&& value
    { e with
      regs_and_mem := e.regs_and_mem.set reg v
      flags := Flags.set_from_arithmetic
        { e.flags with carry := false, auxiliary_carry := false } v }
  | .Or =>
    let v := r ||| value
    { e with
      regs_and_mem := e.regs_and_mem.set reg v
      flags := Flags.set_from_arithmetic
        { e.flags with carry := false, auxiliary_carry := false } v }
  | .Xor =>
    let v := r ^^^ value
    { e with
      regs_and_mem := e.regs_and_mem.set reg v
      flags := Flags.set_from_arithmetic
        { e.flags with carry := false, auxiliary_carry := false } v }
  | .Compare =>
    let aux := (borrowingSubP (r &&& 0xF0) value false).2
    let s := borrowingSubP r value false
    { e with
      flags := Flags.set_from_arithmetic
        { e.flags with auxiliary_carry := aux, carry := s.2 } s.1 }

/-- Embedding of Emulator::get_stack_op_pair. -/
def Emulator.get_stack_op_pair (e : Emulator) : StackOpRegPair → Nat
  | .Bc => e.regs_and_mem.registers.c + 256 * e.regs_and_mem.registers.b
  | .De => e.regs_and_mem.registers.e + 256 * e.regs_and_mem.registers.d
  | .Hl => e.regs_and_mem.registers.l + 256 * e.regs_and_mem.registers.h
  | .FlagsA => e.regs_and_mem.registers.a + 256 * e.flags.as_byte

/-- Embedding of Emulator::set_stack_op_pair. -/
def Emulator.set_stack_op_pair (e : Emulator) (pair : StackOpRegPair) (value : Nat) :
    Emulator :=
  let lo := value % 256
  let hi := value / 256 % 256
  match pair with
  | .Bc => { e with regs_and_mem :=
      { e.regs_and_mem with registers := { e.regs_and_mem.registers with c := lo, b := hi } } }
  | .De => { e with regs_and_mem :=
      { e.regs_and_mem with registers := { e.regs_and_mem.registers with e := lo, d := hi } } }
  | .Hl => { e with regs_and_mem :=
      { e.regs_and_mem with registers := { e.regs_and_mem.registers with l := lo, h := hi } } }
  | .FlagsA => { e with
      regs_and_mem :=
        { e.regs_and_mem with registers := { e.regs_and_mem.registers with a := lo } },
      flags := e.flags.set_byte hi }

/-- Embedding of Emulator::handle_interrupt: clear interrupts_enabled, push
PC, jump to the vector. -/
def Emulator.handle_interrupt (e : Emulator) (interrupt_number : Nat) : Option Emulator :=
  let e := { e with interrupts_enabled := false }
  match e.regs_and_mem.push e.regs_and_mem.registers.program_counter with
  | none => none
  | some rm => some { e with regs_and_mem :=
      { rm with registers :=
        { rm.registers with program_counter := interrupt_number <<< 3 } } }

/-- Embedding of Emulator::next_instruction: decode at PC against the whole
memory, then store the cursor back into the u16 PC (truncating cast). -/
def Emulator.next_instruction (e : Emulator) : Option (Instruction × Emulator) :=
  match Instruction.decode
      { data := fun i => if i < 65536 then some (e.regs_and_mem.memory i) else none,
        cursor := e.regs_and_mem.registers.program_counter } with
  | none => none
  | some (instruction, buffer) =>
    some (instruction, { e with regs_and_mem :=
      { e.regs_and_mem with registers :=
        { e.regs_and_mem.registers with program_counter := buffer.cursor % 65536 } } })

/-- Helper for record updates of the registers inside an Emulator. -/
def Emulator.with_regs (e : Emulator) (r : Registers) : Emulator :=
  { e with regs_and_mem := { e.regs_and_mem with registers := r } }

/-- Embedding of the per-instruction match inside Emulator::execute_one
(execute_one.rs), factored out of the fetch so the two stages can be reasoned
about separately; e is the state after the fetch updated the program counter.
Returns none where the source panics (out-of-bounds two-byte memory access,
or the port-3 read with an offset above 8). -/
def Emulator.step (e : Emulator) (instruction : Instruction) :
    Option (ExecuteResult × Emulator) :=
  match instruction with
  | .ComplementCarry =>
    pure (.Normal, { e with flags := { e.flags with carry := !e.flags.carry } })
  | .SetCarry => pure (.Normal, { e with flags := { e.flags with carry := true } })
  | .Increment register => pure (.Normal, e.do_operation .Add register 1)
  | .Decrement register => pure (.Normal, e.do_operation .Subtract register 1)
  | .ComplementAccumulator =>
    pure (.Normal, e.with_regs
      { e.regs_and_mem.registers with a := 255 ^^^ e.regs_and_mem.registers.a })
  | .DecimalAdjustAccumulator =>
    let a := e.regs_and_mem.registers.a
    let low0 := a &&& 15
    let high0 := a >>> 4
    let aux0 := e.flags.auxiliary_carry
    let low1 := if low0 > 9 ∨ aux0 then low0 + 6 else low0
    let aux1 := if low0 > 9 ∨ aux0 then decide (low1 > 15) else aux0
    let high1 := if low0 > 9 ∨ aux0 then high0 + (low1 >>> 4) else high0
    let carry0 := e.flags.carry
    let high2 := if high1 > 9 ∨ carry0 then high1 + 6 else high1
    let carry1 := if high1 > 9 ∨ carry0 then decide (high2 > 15) else carry0
    let a1 := (high2 <<< 4) % 256 ||| (low1 &&& 15)
    pure (.Normal,
      { e.with_regs { e.regs_and_mem.registers with a := a1 } with
        flags := Flags.set_from_arithmetic
          { e.flags with auxiliary_carry := aux1, carry := carry1 } a1 })
  | .Nop => pure (.Normal, e)
  | .Move destination source =>
    pure (.Normal, { e with
      regs_and_mem := e.regs_and_mem.set destination (e.regs_and_mem.get source) })
  | .StoreAccumulator addr_pair =>
    let address := e.regs_and_mem.get_small_pair addr_pair
    pure (.Normal, { e with regs_and_mem := { e.regs_and_mem with
      memory := memUpdate e.regs_and_mem.memory address e.regs_and_mem.registers.a } })
  | .LoadAccumulator addr_pair =>
    let address := e.regs_and_mem.get_small_pair addr_pair
    pure (.Normal, e.with_regs
      { e.regs_and_mem.registers with a := e.regs_and_mem.memory address })
  | .ToAccumulator operation register =>
    pure (.Normal, e.do_operation operation .A (e.regs_and_mem.get register))
  | .RotateAccumulator .Left =>
    let a := e.regs_and_mem.registers.a
    pure (.Normal, { e.with_regs
      { e.regs_and_mem.registers with a := (a <<< 1 ||| a >>> 7) % 256 } with
      flags := { e.flags with carry := decide (a &&& 128 > 0) } })
  | .RotateAccumulator .Right =>
    let a := e.regs_and_mem.registers.a
    pure (.Normal, { e.with_regs
      { e.regs_and_mem.registers with a := a >>> 1 ||| (a &&& 1) <<< 7 } with
      flags := { e.flags with carry := decide (a &&& 1 > 0) } })
  | .RotateAccumulator .LeftThroughCarry =>
    let a := e.regs_and_mem.registers.a
    let carry := e.flags.carry
    pure (.Normal, { e.with_regs
      { e.regs_and_mem.registers with a := (a <<< 1) % 256 ||| b2n carry } with
      flags := { e.flags with carry := decide (a &&& 128 > 0) } })
  | .RotateAccumulator .RightThroughCarry =>
    let a := e.regs_and_mem.registers.a
    let carry := e.flags.carry
    pure (.Normal, { e.with_regs
      { e.regs_and_mem.registers with a := a >>> 1 ||| b2n carry <<< 7 } with
      flags := { e.flags with carry := decide (a &&& 1 > 0) } })
  | .Push pair =>
    let value := e.get_stack_op_pair pair
    match e.regs_and_mem.push value with
    | none => none
    | some rm => pure (.Normal, { e with regs_and_mem := rm })
  | .Pop pair =>
    match e.regs_and_mem.pop with
    | none => none
    | some (value, rm) => pure (.Normal, ({ e with regs_and_mem := rm }).set_stack_op_pair pair value)
  | .AddToHl pair =>
    let value := e.regs_and_mem.registers.get_pair pair
    let s := overflowingAdd16 e.regs_and_mem.registers.hl value
    pure (.Normal, { e.with_regs (e.regs_and_mem.registers.set_hl s.1) with
      flags := { e.flags with carry := s.2 } })
  | .IncrementPair pair =>
    pure (.Normal, e.with_regs
      (e.regs_and_mem.registers.map_pair pair (fun value => (value + 1) % 65536)))
  | .DecrementPair pair =>
    pure (.Normal, e.with_regs
      (e.regs_and_mem.registers.map_pair pair (fun value => (value + 65535) % 65536)))
  | .ExchangeRegisters =>
    let hl := e.regs_and_mem.registers.hl
    let de := e.regs_and_mem.registers.get_pair .De
    pure (.Normal, e.with_regs ((e.regs_and_mem.registers.set_hl de).set_pair .De hl))
  | .ExchangeStack =>
    let hl := e.regs_and_mem.registers.hl
    match e.regs_and_mem.get_at_stack with
    | none => none
    | some at_stack =>
      let e := e.with_regs (e.regs_and_mem.registers.set_hl at_stack)
      match e.regs_and_mem.set_at_stack hl with
      | none => none
      | some rm => pure (.Normal, { e with regs_and_mem := rm })
  | .LoadSpFromHl =>
    pure (.Normal, e.with_regs
      { e.regs_and_mem.registers with stack_pointer := e.regs_and_mem.registers.hl })
  | .LoadLargeImmediate pair value =>
    pure (.Normal, e.with_regs (e.regs_and_mem.registers.set_pair pair value))
  | .LoadImmediate reg value =>
    pure (.Normal, { e with regs_and_mem := e.regs_and_mem.set reg value })
  | .ToAccumulatorImmediate operation value =>
    pure (.Normal, e.do_operation operation .A value)
  | .DirectAddress .LoadAccumulator addr =>
    pure (.Normal, e.with_regs
      { e.regs_and_mem.registers with a := e.regs_and_mem.memory addr })
  | .DirectAddress .StoreAccumulator addr =>
    pure (.Normal, { e with regs_and_mem := { e.regs_and_mem with
      memory := memUpdate e.regs_and_mem.memory addr e.regs_and_mem.registers.a } })
  | .DirectAddress .LoadHl addr =>
    match e.regs_and_mem.get_u16_at addr with
    | none => none
    | some v => pure (.Normal, e.with_regs (e.regs_and_mem.registers.set_hl v))
  | .DirectAddress .StoreHl addr =>
    match e.regs_and_mem.set_u16_at addr e.regs_and_mem.registers.hl with
    | none => none
    | some rm => pure (.Normal, { e with regs_and_mem := rm })
  | .LoadProgramCounter =>
    pure (.Normal, e.with_regs
      { e.regs_and_mem.registers with program_counter := e.regs_and_mem.registers.hl })
  | .Jump condition addr =>
    if e.flags.evaluate condition then
      pure (.Normal, e.with_regs { e.regs_and_mem.registers with program_counter := addr })
    else pure (.Normal, e)
  | .Call condition addr =>
    if e.flags.evaluate condition then
      match e.regs_and_mem.push e.regs_and_mem.registers.program_counter with
      | none => none
      | some rm => pure (.Normal, { e with regs_and_mem :=
          { rm with registers := { rm.registers with program_counter := addr } } })
    else pure (.Normal, e)
  | .ReturnFromSubroutine condition =>
    if e.flags.evaluate condition then
      match e.regs_and_mem.pop with
      | none => none
      | some (addr, rm) => pure (.Normal, { e with regs_and_mem :=
          { rm with registers := { rm.registers with program_counter := addr } } })
    else pure (.Normal, e)
  | .Restart routine_number =>
    match e.handle_interrupt routine_number with
    | none => none
    | some e => pure (.Normal, e)
  | .EnableInterrupts => pure (.Normal, { e with interrupts_enabled := true })
  | .DisableInterrupts => pure (.Normal, { e with interrupts_enabled := false })
  | .In port =>
    match e.read_port port with
    | none => none
    | some none => pure (.Normal, e)
    | some (some ret) =>
      pure (.Normal, e.with_regs { e.regs_and_mem.registers with a := ret })
  | .Out port => pure (.Normal, e.write_port port e.regs_and_mem.registers.a)
  | .Halt => pure (.Halt e.interrupts_enabled, e)
  | .Invalid _ => pure (.Normal, e)

/-- Embedding of Emulator::execute_one: fetch and decode at PC, then run the
instruction match; the cycle-accurate sleep only consumes real time and is
not modelled. -/
def Emulator.execute_one (e : Emulator) : Option (ExecuteResult × Emulator) :=
  match e.next_instruction with
  | none => none
  | some (instruction, e) => e.step instruction

/-- Fuelled instruction loop: run execute_one until a Halt result, returning
the interrupts_enabled value the halt carried and the final state. -/
def Emulator.run : Nat → Emulator → Option (Bool × Emulator)
  | 0, _ => none
  | fuel + 1, e =>
    match e.execute_one with
    | none => none
    | some (.Normal, e) => Emulator.run fuel e
    | some (.Halt ie, e) => some (ie, e)

/-! Helper lemmas shared between the claim theorems. -/

theorem memUpdate_self (m : Nat → Nat) (a v : Nat) : memUpdate m a v a = v := by
  simp [memUpdate]

theorem memUpdate_ne (m : Nat → Nat) (a v b : Nat) (h : b ≠ a) :
    memUpdate m a v b = m b := by
  simp [memUpdate, h]

/-! Claim theorems. -/

/-- C1 counterexample: with sign_positive = true (last result MSB was 0) the
packed flag byte has bit 7 set, so bit 7 is NOT 1 exactly when sign_positive
is false; as_byte packs the stored bit without re-inverting it. -/
theorem as_byte_bit7_not_reinverted :
    ¬ (∀ f : Flags, (f.as_byte &&& 128 = 128) ↔ f.sign_positive = false) := by
  intro h
  exact absurd ((h ⟨false, false, true, false, false⟩).mp (by decide)) (by decide)

/-- C1 amended: bit 7 of Flags::as_byte is 1 exactly when sign_positive is
true, i.e. exactly when the MSB of the last arithmetic result was 0; the
packed byte does not re-invert the stored bit, so its bit 7 is the inverse
of the 8080 hardware S flag. -/
theorem as_byte_bit7_eq_sign_positive (f : Flags) :
    (f.as_byte &&& 128 = 128) ↔ f.sign_positive = true := by
  rcases f with ⟨c, ac, s, z, p⟩
  cases c <;> cases ac <;> cases s <;> cases z <;> cases p <;> decide

/-- C2 counterexample: from the zeroed state with A = 0 and operand 1, the
Compare operation sets auxiliary_carry (borrow out of (0 &&& 0xF0) − 1) but
the Subtract operation does not (no borrow in (0 >>> 4) − (1 >>> 4)), so
Compare does not set all five flags exactly as Subtract would. -/
theorem compare_aux_carry_differs_from_subtract :
    ((Emulator.new [] 0).do_operation .Compare .A 1).flags.auxiliary_carry = true ∧
    ((Emulator.new [] 0).do_operation .Subtract .A 1).flags.auxiliary_carry = false := by
  exact ⟨rfl, rfl⟩

/-- C2 amended: Compare sets carry, sign_positive, zero and parity_even
exactly as Subtract would for the same register and operand and leaves the
register unchanged, but its auxiliary_carry is the borrow of
(reg &&& 0xF0) − value rather than Subtract's borrow of
(reg >>> 4) − (value >>> 4). -/
theorem compare_matches_subtract_except_aux (e : Emulator) (reg : Register) (value : Nat) :
    ((e.do_operation .Compare reg value).flags.carry =
      (e.do_operation .Subtract reg value).flags.carry) ∧
    ((e.do_operation .Compare reg value).flags.sign_positive =
      (e.do_operation .Subtract reg value).flags.sign_positive) ∧
    ((e.do_operation .Compare reg value).flags.zero =
      (e.do_operation .Subtract reg value).flags.zero) ∧
    ((e.do_operation .Compare reg value).flags.parity_even =
      (e.do_operation .Subtract reg value).flags.parity_even) ∧
    ((e.do_operation .Compare reg value).regs_and_mem.get reg = e.regs_and_mem.get reg) ∧
    ((e.do_operation .Compare reg value).flags.auxiliary_carry =
      (borrowingSubP (e.regs_and_mem.get reg &&& 0xF0) value false).2) := by
  exact ⟨rfl, rfl, rfl, rfl, rfl, rfl⟩

/-- C3 counterexample: after writing offset 3 on port 2 and bytes 0x12 and
0x34 on port 4, the port-3 read returns 0xA0, not 0x91; the combined word is
0x3412 (the later write 0x34 is the high byte) and 0x3412 >>> 5 truncated to
a byte is 0xA0. -/
theorem shift_scenario_not_0x91 :
    (((((Emulator.new [] 0).write_port 2 3).write_port 4 0x12).write_port 4 0x34).read_port 3)
      = some (some 0xA0) ∧ (0xA0 : Nat) ≠ 0x91 :=
  ⟨rfl, by decide⟩

/-- C3 amended: the scenario's port-3 read returns
((0x34 <<< 8 ||| 0x12) >>> 5) &&& 0xFF, whose value is 0xA0 (the claim's
formula is right but its stated numeric value 0x91 is not). -/
theorem shift_scenario_reads_0xA0 :
    (((((Emulator.new [] 0).write_port 2 3).write_port 4 0x12).write_port 4 0x34).read_port 3)
      = some (some (((0x34 <<< 8 ||| 0x12) >>> 5) &&& 0xFF)) := rfl

/-- C4 counterexample: writing 0x0B to port 2 stores the raw byte 0x0B as
the shift-register offset, not 0x0B &&& 0x07 = 3, and the subsequent
shift-register read is undefined (8 − offset underflows in the source). -/
theorem write_offset_unmasked :
    (((Emulator.new [] 0).write_port 2 0x0B).shift_register.offset = 0x0B) ∧
    ((0x0B : Nat) &&& 0x07 = 0x03) ∧ (0x0B : Nat) ≠ 0x03 ∧
    (((Emulator.new [] 0).write_port 2 0x0B).shift_register.read = none) :=
  ⟨rfl, by decide, by decide, rfl⟩

/-- C4 amended: writing v to port 2 stores the raw byte v as the offset (no
&&& 0x07 mask is applied), and a subsequent shift-register read is
well-defined whenever v ≤ 8. -/
theorem write_offset_raw_and_read_defined (e : Emulator) (v : Nat) (hv : v ≤ 8) :
    ((e.write_port 2 v).shift_register.offset = v) ∧
    ((e.write_port 2 v).shift_register.read).isSome = true := by
  refine ⟨rfl, ?_⟩
  simp [Emulator.write_port, ShiftRegister.write_offset, ShiftRegister.read, hv]

/-- C4 witness: the amended statement holds at v = 3 on a fresh emulator. -/
theorem write_offset_raw_and_read_defined_witness :
    (3 ≤ 8) ∧ ((((Emulator.new [] 0).write_port 2 3).shift_register.offset = 3) ∧
      ((((Emulator.new [] 0).write_port 2 3).shift_register.read).isSome = true)) :=
  ⟨by decide, write_offset_raw_and_read_defined (Emulator.new [] 0) 3 (by decide)⟩

set_option maxHeartbeats 2000000 in
/-- C5: for every opcode byte, against a buffer holding the opcode and two
further immediate bytes, the decoder returns exactly one instruction (it is
a total function into some-values, so never a panic and never more than one
variant) and advances the cursor by exactly the byte count of the section 6
opcode table, which is between 1 and 3. -/
theorem decode_total_and_length (op x y : Nat) (hop : op < 256) :
    ∃ i b, Instruction.decode { data := fun k => [op, x, y].get? k, cursor := 0 } = some (i, b) ∧
      b.cursor = specByteCount op ∧ 1 ≤ specByteCount op ∧ specByteCount op ≤ 3 := by
  interval_cases op <;> exact ⟨_, _, rfl, rfl, by decide, by decide⟩

/-- C5 witness: the statement instantiated at opcode 0xC3 (JMP) with
immediate bytes 0x34 and 0x12. -/
theorem decode_total_and_length_witness :
    (0xC3 < 256) ∧ (∃ i b,
      Instruction.decode { data := fun k => [0xC3, 0x34, 0x12].get? k, cursor := 0 } = some (i, b) ∧
      b.cursor = specByteCount 0xC3 ∧ 1 ≤ specByteCount 0xC3 ∧ specByteCount 0xC3 ≤ 3) :=
  ⟨by decide, decode_total_and_length 0xC3 0x34 0x12 (by decide)⟩

/-- A zeroed register file with a zeroed 64 KiB memory, used as a concrete
machine state by witnesses. -/
def zeroRegsAndMem : RegistersAndMemory :=
  { registers := Registers.default, memory := fun _ => 0 }

/-- C6 counterexample: with the stack pointer at 1, push wraps SP to 0xFFFF
and the two-byte little-endian store at 0xFFFF runs off the end of the
65536-byte memory (a panic in the source), so push followed by pop does not
return the value for every initial 16-bit stack pointer. -/
theorem push_fails_at_sp_one :
    ({ registers := { Registers.default with stack_pointer := 1 },
       memory := fun _ => 0 } : RegistersAndMemory).push 0x1234 = none := rfl

/-- C6 amended: for every initial 16-bit stack pointer other than 1 (the one
value whose wrapped decrement puts the two-byte store at 0xFFFF, out of
bounds) and every 16-bit value v, push(v) followed by pop() returns v and
restores the stack pointer, with SP arithmetic wrapping modulo 2^16. -/
theorem push_pop_roundtrip (rm : RegistersAndMemory) (v : Nat)
    (hsp : rm.registers.stack_pointer < 65536)
    (hsp1 : rm.registers.stack_pointer ≠ 1)
    (hv : v < 65536) :
    ∃ rm1 rm2, rm.push v = some rm1 ∧ rm1.pop = some (v, rm2) ∧
      rm2.registers.stack_pointer = rm.registers.stack_pointer := by
  have h1 : (rm.registers.stack_pointer + 65534) % 65536 + 2 ≤ 65536 := by omega
  refine ⟨{ registers := { rm.registers with stack_pointer := (rm.registers.stack_pointer + 65534) % 65536 }, memory := memUpdate (memUpdate rm.memory ((rm.registers.stack_pointer + 65534) % 65536) (v % 256)) ((rm.registers.stack_pointer + 65534) % 65536 + 1) (v / 256 % 256) }, { registers := { rm.registers with stack_pointer := ((rm.registers.stack_pointer + 65534) % 65536 + 2) % 65536 }, memory := memUpdate (memUpdate rm.memory ((rm.registers.stack_pointer + 65534) % 65536) (v % 256)) ((rm.registers.stack_pointer + 65534) % 65536 + 1) (v / 256 % 256) }, ?_, ?_, ?_⟩
  · unfold RegistersAndMemory.push RegistersAndMemory.set_at_stack RegistersAndMemory.set_u16_at
    rw [if_pos h1]
  · unfold RegistersAndMemory.pop RegistersAndMemory.get_at_stack RegistersAndMemory.get_u16_at
    dsimp only
    rw [if_pos h1]
    rw [memUpdate_self, memUpdate_ne _ _ _ _ (by omega), memUpdate_self]
    have h2 : v % 256 + 256 * (v / 256 % 256) = v := by omega
    rw [h2]
  · show ((rm.registers.stack_pointer + 65534) % 65536 + 2) % 65536 = rm.registers.stack_pointer
    omega

/-- C6 witness: the amended round trip at stack pointer 0 with value
0xABCD. -/
theorem push_pop_roundtrip_witness :
    (zeroRegsAndMem.registers.stack_pointer < 65536) ∧
    (zeroRegsAndMem.registers.stack_pointer ≠ 1) ∧ ((0xABCD : Nat) < 65536) ∧
    (∃ rm1 rm2, zeroRegsAndMem.push 0xABCD = some rm1 ∧ rm1.pop = some (0xABCD, rm2) ∧
      rm2.registers.stack_pointer = zeroRegsAndMem.registers.stack_pointer) :=
  ⟨by decide, by decide, by decide,
    push_pop_roundtrip zeroRegsAndMem 0xABCD (by decide) (by decide) (by decide)⟩

/-- C7: the program 06 FF 04 76 (MVI B,0xFF; INR B; HLT) loaded at 0 from
the zeroed state halts with B = 0, zero, carry, auxiliary_carry, parity_even
and sign_positive all set: Increment is executed as the ALU Add operation
with operand 1, so the carry flag is updated too. -/
theorem inr_overflow_scenario :
    ∃ ie e', (Emulator.new [0x06, 0xFF, 0x04, 0x76] 0).run 3 = some (ie, e') ∧
      e'.regs_and_mem.registers.b = 0 ∧ e'.flags.zero = true ∧ e'.flags.carry = true ∧
      e'.flags.auxiliary_carry = true ∧ e'.flags.parity_even = true ∧
      e'.flags.sign_positive = true := by
  refine ⟨_, _, rfl, rfl, rfl, rfl, rfl, rfl, rfl⟩

/-- C9: from a fresh sound handler, the port-3 write sequence 0x00, 0x02,
0x02, 0x00 plays exactly one sound, the Shot fired on the rising edge of
bit 1; the repeated value and the falling edge play nothing. -/
theorem sound_sequence_one_shot :
    (((((Emulator.new [] 0).write_port 3 0x00).write_port 3 0x02).write_port 3 0x02).write_port 3 0x00).sounds_played
      = [Sound.Shot] := rfl


/-- Decoding helper: reading the opcode byte hands the rest of the buffer to
the dispatch chain. -/
theorem decode_cons (data : Nat → Option Nat) (c op : Nat) (h0 : data c = some op) :
    Instruction.decode { data := data, cursor := c } =
      Instruction.decodeTail op { data := data, cursor := c + 1 } := by
  unfold Instruction.decode Buffer.read_u8
  dsimp only
  rw [h0]
  rfl

/-- Decoding helper: a buffer whose current byte is 0xDB (the In opcode)
followed by a port byte decodes to In(port), consuming two bytes. -/
theorem decode_at_in (data : Nat → Option Nat) (c p : Nat)
    (h0 : data c = some 0xDB) (h1 : data (c + 1) = some p) :
    Instruction.decode { data := data, cursor := c } =
      some (.In p, { data := data, cursor := c + 2 }) := by
  rw [decode_cons data c 0xDB h0]
  unfold Instruction.decodeTail Buffer.read_u8
  norm_num
  rw [h1]
  rfl

/-- Decoding helper: a buffer whose current byte is 0xC7 + 8n for n < 8 (the
11eee111 pattern) decodes to Restart(n), consuming one byte. -/
theorem decode_at_restart (data : Nat → Option Nat) (c n : Nat) (hn : n < 8)
    (h0 : data c = some (0xC7 + 8 * n)) :
    Instruction.decode { data := data, cursor := c } =
      some (.Restart n, { data := data, cursor := c + 1 }) := by
  rw [decode_cons data c (0xC7 + 8 * n) h0]
  interval_cases n <;> rfl

/-- The state after fetching an instruction of the given total byte length:
only the program counter advances (with the truncating u16 cast). -/
def Emulator.fetched (e : Emulator) (len : Nat) : Emulator :=
  { e with regs_and_mem := { e.regs_and_mem with registers := { e.regs_and_mem.registers with program_counter := (e.regs_and_mem.registers.program_counter + len) % 65536 } } }

/-- A fresh emulator whose program is the single instruction IN 7 (an
unattached port), used as a concrete witness state. -/
def inPortEmu : Emulator := Emulator.new [0xDB, 0x07] 0

/-- A fresh emulator whose program is the single instruction RST 0, used as
a concrete witness state. -/
def restartEmu : Emulator := Emulator.new [0xC7] 0

/-- C8 counterexample: with the shift-register offset set to 9 (reachable by
OUT 2 with value 9), executing IN 3 produces no result at all - the port-3
read panics on the underflowing shift amount - so A is not set to any read
value even though 3 is in 0..=3. -/
theorem in_port3_bad_offset_no_result :
    ((Emulator.new [0xDB, 0x03] 0).write_port 2 9).execute_one = none := rfl

/-- C8 amended: executing In(port) leaves A unchanged for every port outside
0..=3 (the unattached read produces no value), and sets A to the port's read
value for ports 0, 1 and 2 always and for port 3 whenever the
shift-register offset is at most 8 (for larger offsets the read panics). -/
theorem in_port_semantics (e : Emulator) (port : Nat)
    (hpc : e.regs_and_mem.registers.program_counter + 1 < 65536)
    (hop : e.regs_and_mem.memory e.regs_and_mem.registers.program_counter = 0xDB)
    (himm : e.regs_and_mem.memory (e.regs_and_mem.registers.program_counter + 1) = port) :
    (4 ≤ port → ∃ e', e.execute_one = some (.Normal, e') ∧
        e'.regs_and_mem.registers.a = e.regs_and_mem.registers.a) ∧
    (port = 0 → ∃ e', e.execute_one = some (.Normal, e') ∧ e'.regs_and_mem.registers.a = 0x0E) ∧
    (port = 1 → ∃ e', e.execute_one = some (.Normal, e') ∧ e'.regs_and_mem.registers.a = e.buttons) ∧
    (port = 2 → ∃ e', e.execute_one = some (.Normal, e') ∧ e'.regs_and_mem.registers.a = 0) ∧
    (port = 3 → e.shift_register.offset ≤ 8 →
      ∃ e', e.execute_one = some (.Normal, e') ∧
        some e'.regs_and_mem.registers.a = e.shift_register.read) := by
  have hpclt : e.regs_and_mem.registers.program_counter < 65536 := by omega
  have hdec := decode_at_in
    (fun i => if i < 65536 then some (e.regs_and_mem.memory i) else none)
    e.regs_and_mem.registers.program_counter port
    (by simp [hpclt, hop]) (by simp [hpc, himm])
  have hexec : e.execute_one = (e.fetched 2).step (.In port) := by
    unfold Emulator.execute_one Emulator.next_instruction
    rw [hdec]
    rfl
  refine ⟨?_, ?_, ?_, ?_, ?_⟩
  · intro h4
    refine ⟨e.fetched 2, ?_, rfl⟩
    rw [hexec]
    unfold Emulator.step
    dsimp only
    unfold Emulator.read_port
    rw [if_neg (by omega), if_neg (by omega), if_neg (by omega), if_neg (by omega)]
    rfl
  · intro h0
    subst h0
    exact ⟨(e.fetched 2).with_regs { (e.fetched 2).regs_and_mem.registers with a := 0x0E }, by rw [hexec]; rfl, rfl⟩
  · intro h0
    subst h0
    exact ⟨(e.fetched 2).with_regs { (e.fetched 2).regs_and_mem.registers with a := e.buttons }, by rw [hexec]; rfl, rfl⟩
  · intro h0
    subst h0
    exact ⟨(e.fetched 2).with_regs { (e.fetched 2).regs_and_mem.registers with a := 0 }, by rw [hexec]; rfl, rfl⟩
  · intro h0 hoff
    subst h0
    refine ⟨(e.fetched 2).with_regs { (e.fetched 2).regs_and_mem.registers with a := ((256 * e.shift_register.high + e.shift_register.low) >>> (8 - e.shift_register.offset)) % 256 }, ?_, ?_⟩
    · rw [hexec]
      unfold Emulator.step
      dsimp only
      unfold Emulator.read_port ShiftRegister.read
      rw [if_neg (by omega), if_neg (by omega), if_neg (by omega), if_pos rfl,
        if_pos (show (e.fetched 2).shift_register.offset ≤ 8 from hoff)]
      rfl
    · unfold ShiftRegister.read
      rw [if_pos hoff]
      rfl

/-- C8 witness: the amended statement at a fresh emulator running IN 7. -/
theorem in_port_semantics_witness :
    (inPortEmu.regs_and_mem.registers.program_counter + 1 < 65536) ∧
    (inPortEmu.regs_and_mem.memory inPortEmu.regs_and_mem.registers.program_counter = 0xDB) ∧
    (inPortEmu.regs_and_mem.memory (inPortEmu.regs_and_mem.registers.program_counter + 1) = 7) ∧
    ((4 ≤ 7 → ∃ e', inPortEmu.execute_one = some (.Normal, e') ∧
        e'.regs_and_mem.registers.a = inPortEmu.regs_and_mem.registers.a) ∧
    (7 = 0 → ∃ e', inPortEmu.execute_one = some (.Normal, e') ∧ e'.regs_and_mem.registers.a = 0x0E) ∧
    (7 = 1 → ∃ e', inPortEmu.execute_one = some (.Normal, e') ∧ e'.regs_and_mem.registers.a = inPortEmu.buttons) ∧
    (7 = 2 → ∃ e', inPortEmu.execute_one = some (.Normal, e') ∧ e'.regs_and_mem.registers.a = 0) ∧
    (7 = 3 → inPortEmu.shift_register.offset ≤ 8 →
      ∃ e', inPortEmu.execute_one = some (.Normal, e') ∧
        some e'.regs_and_mem.registers.a = inPortEmu.shift_register.read)) :=
  ⟨by decide, by decide, by decide,
    in_port_semantics inPortEmu 7 (by decide) (by decide) (by decide)⟩

/-- C10: executing Restart(n), besides pushing the program counter (the
pushed word is the address after the one-byte instruction, readable back at
the new stack location) and setting PC to n <<< 3, always clears
interrupts_enabled, because the Restart arm is implemented as the interrupt
dispatch handle_interrupt; in particular a Restart executed while interrupts
are enabled disables them. -/
theorem restart_clears_interrupts (e : Emulator) (n : Nat) (hn : n < 8)
    (hpc : e.regs_and_mem.registers.program_counter < 65536)
    (hop : e.regs_and_mem.memory e.regs_and_mem.registers.program_counter = 0xC7 + 8 * n)
    (hsp : (e.regs_and_mem.registers.stack_pointer + 65534) % 65536 + 2 ≤ 65536) :
    ∃ e', e.execute_one = some (.Normal, e') ∧
      e'.interrupts_enabled = false ∧
      e'.regs_and_mem.registers.program_counter = n <<< 3 ∧
      e'.regs_and_mem.registers.stack_pointer = (e.regs_and_mem.registers.stack_pointer + 65534) % 65536 ∧
      e'.regs_and_mem.get_u16_at ((e.regs_and_mem.registers.stack_pointer + 65534) % 65536) =
        some ((e.regs_and_mem.registers.program_counter + 1) % 65536) := by
  have hdec := decode_at_restart
    (fun i => if i < 65536 then some (e.regs_and_mem.memory i) else none)
    e.regs_and_mem.registers.program_counter n hn (by simp [hpc, hop])
  have hexec : e.execute_one = (e.fetched 1).step (.Restart n) := by
    unfold Emulator.execute_one Emulator.next_instruction
    rw [hdec]
    rfl
  refine ⟨{ flags := e.flags, interrupts_enabled := false, regs_and_mem := { registers := { e.regs_and_mem.registers with stack_pointer := (e.regs_and_mem.registers.stack_pointer + 65534) % 65536, program_counter := n <<< 3 }, memory := memUpdate (memUpdate e.regs_and_mem.memory ((e.regs_and_mem.registers.stack_pointer + 65534) % 65536) ((e.regs_and_mem.registers.program_counter + 1) % 65536 % 256)) ((e.regs_and_mem.registers.stack_pointer + 65534) % 65536 + 1) ((e.regs_and_mem.registers.program_counter + 1) % 65536 / 256 % 256) }, shift_register := e.shift_register, buttons := e.buttons, sound_handler := e.sound_handler, sounds_played := e.sounds_played }, ?_, rfl, rfl, rfl, ?_⟩
  · rw [hexec]
    unfold Emulator.step Emulator.handle_interrupt RegistersAndMemory.push
      RegistersAndMemory.set_at_stack RegistersAndMemory.set_u16_at
    dsimp only [Emulator.fetched]
    rw [if_pos hsp]
    rfl
  · unfold RegistersAndMemory.get_u16_at
    dsimp only
    rw [if_pos hsp]
    rw [memUpdate_ne _ _ _ _ (by omega), memUpdate_self, memUpdate_self]
    have h2 : (e.regs_and_mem.registers.program_counter + 1) % 65536 % 256 +
        256 * ((e.regs_and_mem.registers.program_counter + 1) % 65536 / 256 % 256) =
        (e.regs_and_mem.registers.program_counter + 1) % 65536 := by omega
    rw [h2]

/-- C10 witness: the statement at a fresh emulator (interrupts enabled)
running RST 0. -/
theorem restart_clears_interrupts_witness :
    (0 < 8) ∧ (restartEmu.regs_and_mem.registers.program_counter < 65536) ∧
    (restartEmu.regs_and_mem.memory restartEmu.regs_and_mem.registers.program_counter = 0xC7 + 8 * 0) ∧
    ((restartEmu.regs_and_mem.registers.stack_pointer + 65534) % 65536 + 2 ≤ 65536) ∧
    (∃ e', restartEmu.execute_one = some (.Normal, e') ∧
      e'.interrupts_enabled = false ∧
      e'.regs_and_mem.registers.program_counter = 0 <<< 3 ∧
      e'.regs_and_mem.registers.stack_pointer = (restartEmu.regs_and_mem.registers.stack_pointer + 65534) % 65536 ∧
      e'.regs_and_mem.get_u16_at ((restartEmu.regs_and_mem.registers.stack_pointer + 65534) % 65536) =
        some ((restartEmu.regs_and_mem.registers.program_counter + 1) % 65536)) :=
  ⟨by decide, by decide, by decide, by decide,
    restart_clears_interrupts restartEmu 0 (by decide) (by decide) (by decide) (by decide)⟩

end Eighty
